import Mathlib

/-!
Verification of the ANCS protocol core of `src/ancs_service.py`.

Bytes are modelled as natural numbers (values `0..255` on the wire); byte
buffers as `List Nat`. Python `dict`s keyed by small integers are modelled as
association lists with unique-key operations: insertion overwrites the
existing binding in place, `pop`/removal drops the key's binding.
-/

namespace ANCS

/-- Recombine a little-endian byte list into a natural number, as
`int.from_bytes(_, byteorder="little")` does. -/
def leNat : List Nat → Nat
  | [] => 0
  | b :: rest => b + 256 * leNat rest

/-- Little-endian two-byte encoding, as `n.to_bytes(2, byteorder="little")`. -/
def u16le (n : Nat) : List Nat :=
  [n % 256, n / 256 % 256]

/-- Little-endian four-byte encoding, as `n.to_bytes(4, byteorder="little")`. -/
def u32le (n : Nat) : List Nat :=
  [n % 256, n / 256 % 256, n / 256 / 256 % 256, n / 256 / 256 / 256 % 256]

/-- Association-list model of a Python `dict` keyed by `Nat`: lookup returns
the first (hence, under unique keys, the only) binding. -/
def dget (k : Nat) : List (Nat × α) → Option α
  | [] => none
  | (k', v) :: rest => if k' = k then some v else dget k rest

/-- Dict assignment `d[k] = v`: overwrites an existing binding in place,
otherwise appends a new binding (insertion order, as in Python). -/
def dinsert (k : Nat) (v : α) : List (Nat × α) → List (Nat × α)
  | [] => [(k, v)]
  | (k', v') :: rest =>
      if k' = k then (k, v) :: rest else (k', v') :: dinsert k v rest

/-- Removal of a key's binding, the state effect of `d.pop(k, None)`. -/
def dremove (k : Nat) (m : List (Nat × α)) : List (Nat × α) :=
  m.filter (fun p => p.1 ≠ k)

/-- Python `d.pop(k, None)`: returns the removed value (or `none`) together
with the table without `k`. -/
def dpop (k : Nat) (m : List (Nat × α)) : Option α × List (Nat × α) :=
  (dget k m, dremove k m)

/-! ### Wire-level constants (`src/ancs_service.py`, lines 82-118) -/

def EVENT_ADDED : Nat := 0
def EVENT_MODIFIED : Nat := 1
def EVENT_REMOVED : Nat := 2

def CP_GET_NOTIFICATION_ATTRIBUTES : Nat := 0

def NA_APP_IDENTIFIER : Nat := 0
def NA_TITLE : Nat := 1
def NA_SUBTITLE : Nat := 2
def NA_MESSAGE : Nat := 3

def MAX_TITLE_LEN : Nat := 64
def MAX_MESSAGE_LEN : Nat := 256

/-- Event kind: the closed table `{0: Added, 1: Modified, 2: Removed}` with
the `Unknown(code)` fallback of `_on_notification_source`. -/
inductive EventKind where
  | Added
  | Modified
  | Removed
  | Unknown (code : Nat)
deriving DecidableEq

/-- Category: the closed `CATEGORIES` table (code points 0-11) with the
`Unknown(code)` fallback of `_on_notification_source`. -/
inductive Category where
  | Other
  | IncomingCall
  | MissedCall
  | Voicemail
  | Social
  | Schedule
  | Email
  | News
  | Health
  | Business
  | Location
  | Entertainment
  | Unknown (code : Nat)
deriving DecidableEq

/-- Lookup in `{0: "Added", 1: "Modified", 2: "Removed"}` with the
`Unknown(event_id)` default. -/
def eventKindOfId (n : Nat) : EventKind :=
  if n = 0 then .Added
  else if n = 1 then .Modified
  else if n = 2 then .Removed
  else .Unknown n

/-- Lookup `CATEGORIES.get(category_id, ...)` with the `Unknown(category_id)`
default. -/
def categoryOfId (n : Nat) : Category :=
  if n = 0 then .Other
  else if n = 1 then .IncomingCall
  else if n = 2 then .MissedCall
  else if n = 3 then .Voicemail
  else if n = 4 then .Social
  else if n = 5 then .Schedule
  else if n = 6 then .Email
  else if n = 7 then .News
  else if n = 8 then .Health
  else if n = 9 then .Business
  else if n = 10 then .Location
  else if n = 11 then .Entertainment
  else .Unknown n

/-- The structured content of a decoded notification-source packet:
the fields extracted at lines 202-209 of `src/ancs_service.py`. -/
structure NotificationEvent where
  kind : EventKind
  flags : Nat
  category : Category
  categoryCount : Nat
  uid : Nat
deriving DecidableEq

/-- Decoding step of `_on_notification_source` (lines 199-209): packets
shorter than 8 bytes are reported and dropped (`none`); otherwise byte 0 is
the event kind, byte 1 the flags, byte 2 the category, byte 3 the category
count, and bytes 4..8 the little-endian u32 uid. Trailing bytes are unread. -/
def decode_notification_source (data : List Nat) : Option NotificationEvent :=
  if data.length < 8 then
    none
  else
    some { kind := eventKindOfId (data.getD 0 0)
           flags := data.getD 1 0
           category := categoryOfId (data.getD 2 0)
           categoryCount := data.getD 3 0
           uid := leNat ((data.drop 4).take 4) }

/-! ### TLV attribute parsing (`_parse_tlv_attributes`, lines 220-233) -/

/-- Loop body of `_parse_tlv_attributes`: cursor `i` into `data`, accumulator
`out`. While at least 3 bytes remain (`i + 3 <= len(data)`), read
`attr_id = data[i]` and `length = int.from_bytes(data[i+1:i+3], "little")`;
stop if the declared length overruns the buffer (`i + 3 + length > len(data)`),
else bind `out[attr_id] = data[i+3 : i+3+length]` and advance past the value. -/
def parse_tlv_go (data : List Nat) (i : Nat) (out : List (Nat × List Nat)) :
    List (Nat × List Nat) :=
  if _h : i + 3 ≤ data.length then
    if i + 3 + (data.getD (i + 1) 0 + 256 * data.getD (i + 2) 0) > data.length then
      out
    else
      parse_tlv_go data (i + 3 + (data.getD (i + 1) 0 + 256 * data.getD (i + 2) 0))
        (dinsert (data.getD i 0)
          ((data.drop (i + 3)).take (data.getD (i + 1) 0 + 256 * data.getD (i + 2) 0))
          out)
  else
    out
termination_by data.length - i
decreasing_by omega

/-- The function `_parse_tlv_attributes(data)`: parse the whole buffer from
cursor 0 with an empty accumulator. -/
def parse_tlv_attributes (data : List Nat) : List (Nat × List Nat) :=
  parse_tlv_go data 0 []

/-- Structural presentation of the same loop, recursing on the unread suffix
of the buffer: used to reason about `parse_tlv_go` by list induction. -/
def parseTLVRest (out : List (Nat × List Nat)) :
    List Nat → List (Nat × List Nat)
  | a :: l0 :: l1 :: rest =>
      if rest.length < l0 + 256 * l1 then
        out
      else
        parseTLVRest (dinsert a (rest.take (l0 + 256 * l1)) out)
          (rest.drop (l0 + 256 * l1))
  | _ => out
termination_by l => l.length
decreasing_by simp [List.length_drop]; omega

/-- Fuel-bounded variant of the TLV loop: performs at most `fuel` iterations.
Its agreement with `parse_tlv_attributes` at `fuel = len(data)` witnesses that
the loop terminates, each iteration consuming at least 3 bytes. -/
def parse_tlv_fuel (fuel : Nat) (data : List Nat) (out : List (Nat × List Nat)) :
    List (Nat × List Nat) :=
  match fuel, data with
  | f + 1, a :: l0 :: l1 :: rest =>
      if rest.length < l0 + 256 * l1 then
        out
      else
        parse_tlv_fuel f (rest.drop (l0 + 256 * l1))
          (dinsert a (rest.take (l0 + 256 * l1)) out)
  | _, _ => out

/-! ### Permissive text decoding and trimming (`_on_data_source`, lines 245-252) -/

/-- Whether `b` is a UTF-8 continuation byte. -/
def utf8Cont (b : Nat) : Bool :=
  0x80 ≤ b && b ≤ 0xBF

/-- UTF-8 decoding with Python's `errors="ignore"` policy (used by
`.decode(errors="ignore")` at lines 245-247): bytes that do not start a valid
sequence, and incomplete or ill-formed sequences, are dropped instead of
failing; the result is the list of decoded code points. -/
def decodeUtf8Ignore : List Nat → List Nat
  | [] => []
  | b :: rest =>
      if b ≤ 0x7F then
        b :: decodeUtf8Ignore rest
      else if 0xC2 ≤ b && b ≤ 0xDF then
        match rest with
        | [] => []
        | c1 :: r1 =>
            if utf8Cont c1 then
              ((b - 0xC0) * 64 + (c1 - 0x80)) :: decodeUtf8Ignore r1
            else
              decodeUtf8Ignore (c1 :: r1)
      else if 0xE0 ≤ b && b ≤ 0xEF then
        match rest with
        | [] => []
        | c1 :: r1 =>
            if (if b = 0xE0 then 0xA0 else 0x80) ≤ c1 &&
                c1 ≤ (if b = 0xED then 0x9F else 0xBF) then
              match r1 with
              | [] => []
              | c2 :: r2 =>
                  if utf8Cont c2 then
                    ((b - 0xE0) * 4096 + (c1 - 0x80) * 64 + (c2 - 0x80)) ::
                      decodeUtf8Ignore r2
                  else
                    decodeUtf8Ignore (c2 :: r2)
            else
              decodeUtf8Ignore (c1 :: r1)
      else if 0xF0 ≤ b && b ≤ 0xF4 then
        match rest with
        | [] => []
        | c1 :: r1 =>
            if (if b = 0xF0 then 0x90 else 0x80) ≤ c1 &&
                c1 ≤ (if b = 0xF4 then 0x8F else 0xBF) then
              match r1 with
              | [] => []
              | c2 :: r2 =>
                  if utf8Cont c2 then
                    match r2 with
                    | [] => []
                    | c3 :: r3 =>
                        if utf8Cont c3 then
                          ((b - 0xF0) * 262144 + (c1 - 0x80) * 4096 +
                              (c2 - 0x80) * 64 + (c3 - 0x80)) ::
                            decodeUtf8Ignore r3
                        else
                          decodeUtf8Ignore (c3 :: r3)
                  else
                    decodeUtf8Ignore (c2 :: r2)
            else
              decodeUtf8Ignore (c1 :: r1)
      else
        decodeUtf8Ignore rest

/-- Whether `c` is one of the characters of the strip set `"\x00\n\r "`
used at lines 250-252. -/
def isStripChar (c : Nat) : Bool :=
  c = 0 || c = 10 || c = 13 || c = 32

/-- Python `s.strip("\x00\n\r ")`: remove those characters from both ends. -/
def stripControl (s : List Nat) : List Nat :=
  ((s.dropWhile isStripChar).reverse.dropWhile isStripChar).reverse

/-! ### Pending-request table and handlers -/

/-- The `PendingRequest` dataclass (lines 120-123). -/
structure PendingRequest where
  uid : Nat
  expecting : String
deriving DecidableEq

/-- The structured summary `_on_data_source` produces for a response
(lines 245-252): uid plus permissively decoded, trimmed app id, title and
message, each a list of code points. -/
structure NotificationSummary where
  uid : Nat
  app_id : List Nat
  title : List Nat
  message : List Nat
deriving DecidableEq

/-- Outcome of the data-source handler: the updated pending table and the
summary emitted (none when the packet was short and dropped). -/
structure DSOutcome where
  pending : List (Nat × PendingRequest)
  emitted : Option NotificationSummary
deriving DecidableEq

/-- The handler `_on_data_source` (lines 235-268): packets shorter than
4 bytes are reported and dropped; otherwise the first 4 bytes are the uid
(u32 LE), the rest is TLV-parsed, the title/message/app-id attributes are
decoded permissively (missing kinds default to `b""`) and stripped of
`"\x00\n\r "`, the summary is emitted, and the uid's pending entry is
popped (`self.pending.pop(uid, None)`). -/
def on_data_source (pending : List (Nat × PendingRequest)) (data : List Nat) :
    DSOutcome :=
  if data.length < 4 then
    ⟨pending, none⟩
  else
    let uid := leNat (data.take 4)
    let payload := data.drop 4
    let attrs := parse_tlv_attributes payload
    let title := stripControl (decodeUtf8Ignore ((dget NA_TITLE attrs).getD []))
    let message := stripControl (decodeUtf8Ignore ((dget NA_MESSAGE attrs).getD []))
    let app_id := stripControl (decodeUtf8Ignore ((dget NA_APP_IDENTIFIER attrs).getD []))
    ⟨dremove uid pending, some ⟨uid, app_id, title, message⟩⟩

/-- The command bytes built by `_request_notification_attributes`
(lines 277-287): `[CmdID=0][uid u32 LE][AppIdentifier][Title][64 u16 LE]`
`[Message][256 u16 LE]`. -/
def request_attributes_cmd (uid : Nat) : List Nat :=
  [CP_GET_NOTIFICATION_ATTRIBUTES] ++ u32le uid
    ++ [NA_APP_IDENTIFIER]
    ++ [NA_TITLE] ++ u16le MAX_TITLE_LEN
    ++ [NA_MESSAGE] ++ u16le MAX_MESSAGE_LEN

/-- Whether an attribute kind's value is variable-length and so carries a
2-byte maxLength in a request (title, subtitle, message; see the comments at
lines 108-110 of the source). -/
def isVariableLengthKind (k : Nat) : Bool :=
  k == NA_TITLE || k == NA_SUBTITLE || k == NA_MESSAGE

/-- Modelled from the spec: the generic `CommandEncoder.encode(uid, attrs)`
of spec section 4.2, of which `_request_notification_attributes` hardcodes the
instance `[AppIdentifier, Title(64), Message(256)]`: command id byte, uid as
u32 LE, then per attribute its kind byte followed by a u16 LE maxLength only
for variable-length kinds. -/
def encode_command (uid : Nat) (attrs : List (Nat × Option Nat)) : List Nat :=
  CP_GET_NOTIFICATION_ATTRIBUTES :: u32le uid ++
    (attrs.map fun p =>
      if isVariableLengthKind p.1 then p.1 :: u16le (p.2.getD 0) else [p.1]).flatten

/-- Modelled from the spec: walk a command's attribute bytes recovering the
ordered kind list, skipping the 2-byte maxLength after each variable-length
kind (used for the round-trip property of spec section 8). -/
def decodeKindList : List Nat → List Nat
  | [] => []
  | k :: rest =>
      if isVariableLengthKind k then
        match rest with
        | _ :: _ :: rest2 => k :: decodeKindList rest2
        | _ => [k]
      else
        k :: decodeKindList rest

/-- Modelled from the spec: decode a command's fixed header — command id
byte, u32 LE uid — and the ordered list of requested attribute kinds. -/
def decode_command_header (data : List Nat) : Option (Nat × Nat × List Nat) :=
  match data with
  | c :: b0 :: b1 :: b2 :: b3 :: rest =>
      some (c, leNat [b0, b1, b2, b3], decodeKindList rest)
  | _ => none

/-- State effect of `_request_notification_attributes` (lines 289-295): the
pending entry is created first; when the transport write succeeds the entry
stays (`true` = no error reported), when it raises the `except` branch pops
the entry again and reports the failure (`false`), returning normally either
way. -/
def request_notification_attributes (pending : List (Nat × PendingRequest))
    (uid : Nat) (writeOk : Bool) : List (Nat × PendingRequest) × Bool :=
  let p := dinsert uid ⟨uid, "notification_attributes"⟩ pending
  if writeOk then (p, true) else (dremove uid p, false)

/-- Outcome of the notification-source handler: updated pending table, the
uid an attribute request was spawned for (Added only), and the summary it
emitted — always `none`: this handler never builds a summary. -/
structure NSOutcome where
  pending : List (Nat × PendingRequest)
  requested : Option Nat
  emitted : Option NotificationSummary
deriving DecidableEq

/-- Dispatch of `_on_notification_source` (lines 192-218): short packets are
reported and dropped; an Added event spawns an attribute request for the uid;
a Removed event pops any pending entry for the uid; Modified and unknown
events only report. No branch emits a summary or writes anything itself. -/
def on_notification_source (pending : List (Nat × PendingRequest))
    (data : List Nat) : NSOutcome :=
  match decode_notification_source data with
  | none => ⟨pending, none, none⟩
  | some ev =>
      if ev.kind = .Added then
        ⟨pending, some ev.uid, none⟩
      else if ev.kind = .Removed then
        ⟨dremove ev.uid pending, none, none⟩
      else
        ⟨pending, none, none⟩

/-- Build an 8-byte notification-source packet from its five fields. -/
def mkNSPacket (eventId flags categoryId count uid : Nat) : List Nat :=
  [eventId, flags, categoryId, count] ++ u32le uid

/-- Wire encoding of one TLV record: kind byte, u16 LE length, value. -/
def encodeTLVRecord (k : Nat) (v : List Nat) : List Nat :=
  k :: u16le v.length ++ v

/-- Wire encoding of a sequence of TLV records. -/
def encodeTLVRecords : List (Nat × List Nat) → List Nat
  | [] => []
  | (k, v) :: rs => encodeTLVRecord k v ++ encodeTLVRecords rs

/-- Fold a record list into a dict, later records overwriting earlier ones. -/
def insertAll (m : List (Nat × List Nat)) :
    List (Nat × List Nat) → List (Nat × List Nat)
  | [] => m
  | (k, v) :: rs => insertAll (dinsert k v m) rs

/-- Value of the last pair with first component `k`, if any. -/
def lookupLast (k : Nat) : List (Nat × α) → Option α
  | [] => none
  | (k', v) :: rs =>
      match lookupLast k rs with
      | some w => some w
      | none => if k' = k then some v else none

/-! ### Lemmas about the dict model -/

theorem dget_dinsert_self (k : Nat) (v : α) (m : List (Nat × α)) :
    dget k (dinsert k v m) = some v := by
  induction m with
  | nil => simp [dinsert, dget]
  | cons p rest ih =>
      obtain ⟨k', v'⟩ := p
      by_cases h : k' = k <;> simp [dinsert, dget, h, ih]

theorem dget_dremove_self (k : Nat) (m : List (Nat × α)) :
    dget k (dremove k m) = none := by
  induction m with
  | nil => simp [dremove, dget]
  | cons p rest ih =>
      obtain ⟨k', v'⟩ := p
      by_cases h : k' = k <;>
        simp_all [dremove, dget, List.filter_cons, h]

theorem dremove_cons (k k' : Nat) (v' : α) (rest : List (Nat × α)) :
    dremove k ((k', v') :: rest) =
      if k' = k then dremove k rest else (k', v') :: dremove k rest := by
  by_cases hk : k' = k <;> simp [dremove, List.filter_cons, hk]

theorem dremove_of_dget_none (k : Nat) (m : List (Nat × α))
    (h : dget k m = none) : dremove k m = m := by
  induction m with
  | nil => rfl
  | cons p rest ih =>
      obtain ⟨k', v'⟩ := p
      by_cases hk : k' = k
      · simp [dget, hk] at h
      · simp [dget, hk] at h
        rw [dremove_cons, if_neg hk, ih h]

theorem dremove_dinsert_of_none (k : Nat) (v : α) (m : List (Nat × α))
    (h : dget k m = none) : dremove k (dinsert k v m) = m := by
  induction m with
  | nil => simp [dinsert, dremove]
  | cons p rest ih =>
      obtain ⟨k', v'⟩ := p
      by_cases hk : k' = k
      · simp [dget, hk] at h
      · simp [dget, hk] at h
        simp only [dinsert, if_neg hk]
        rw [dremove_cons, if_neg hk, ih h]

/-! ### Lemmas about little-endian encoding -/

theorem leNat_u32le (n : Nat) (h : n < 4294967296) : leNat (u32le n) = n := by
  simp [u32le, leNat]
  omega

theorem leNat_four (b0 b1 b2 b3 : Nat) :
    leNat [b0, b1, b2, b3] = b0 + 256 * b1 + 65536 * b2 + 16777216 * b3 := by
  simp [leNat]
  ring

/-! ### Lemmas about the TLV parser -/

theorem parseTLVRest_nil (out : List (Nat × List Nat)) :
    parseTLVRest out [] = out := by
  simp [parseTLVRest]

theorem parseTLVRest_short (out : List (Nat × List Nat)) (l : List Nat)
    (h : l.length < 3) : parseTLVRest out l = out := by
  match l with
  | [] => simp [parseTLVRest]
  | [a] => simp [parseTLVRest]
  | [a, b] => simp [parseTLVRest]
  | a :: b :: c :: r => simp at h; omega

theorem parseTLVRest_cons (out : List (Nat × List Nat)) (a l0 l1 : Nat)
    (rest : List Nat) :
    parseTLVRest out (a :: l0 :: l1 :: rest) =
      if rest.length < l0 + 256 * l1 then out
      else
        parseTLVRest (dinsert a (rest.take (l0 + 256 * l1)) out)
          (rest.drop (l0 + 256 * l1)) := by
  rw [parseTLVRest]

theorem parse_tlv_go_eq (data : List Nat) (i : Nat)
    (out : List (Nat × List Nat)) :
    parse_tlv_go data i out = parseTLVRest out (data.drop i) := by
  by_cases h : i + 3 ≤ data.length
  · have h0 : i < data.length := by omega
    have h1 : i + 1 < data.length := by omega
    have h2 : i + 2 < data.length := by omega
    have hdrop : data.drop i =
        data[i] :: data[i + 1] :: data[i + 2] :: data.drop (i + 3) := by
      rw [List.drop_eq_getElem_cons h0, List.drop_eq_getElem_cons h1,
        List.drop_eq_getElem_cons h2]
    rw [parse_tlv_go, dif_pos h, hdrop, parseTLVRest_cons,
      List.getD_eq_getElem data 0 h0, List.getD_eq_getElem data 0 h1,
      List.getD_eq_getElem data 0 h2]
    have hlen : (data.drop (i + 3)).length = data.length - (i + 3) := by simp
    by_cases hov : i + 3 + (data[i + 1] + 256 * data[i + 2]) > data.length
    · rw [if_pos hov, if_pos (by omega)]
    · rw [if_neg hov, if_neg (by omega),
        parse_tlv_go_eq data (i + 3 + (data[i + 1] + 256 * data[i + 2])),
        List.drop_drop]
  · rw [parse_tlv_go, dif_neg h, parseTLVRest_short]
    simp only [List.length_drop]
    omega
termination_by data.length - i
decreasing_by omega

theorem parse_tlv_attributes_eq (data : List Nat) :
    parse_tlv_attributes data = parseTLVRest [] data := by
  rw [parse_tlv_attributes, parse_tlv_go_eq]
  rfl

theorem parse_tlv_fuel_eq (fuel : Nat) :
    ∀ (data : List Nat) (out : List (Nat × List Nat)),
      data.length ≤ 3 * fuel → parse_tlv_fuel fuel data out = parseTLVRest out data := by
  induction fuel with
  | zero =>
      intro data out h
      have : data = [] := by
        cases data with
        | nil => rfl
        | cons a r => simp at h
      subst this
      simp [parse_tlv_fuel, parseTLVRest_nil]
  | succ f ih =>
      intro data out h
      match data with
      | [] => simp [parse_tlv_fuel, parseTLVRest_nil]
      | [a] => simp [parse_tlv_fuel, parseTLVRest_short]
      | [a, b] => simp [parse_tlv_fuel]; rw [parseTLVRest_short]; simp
      | a :: l0 :: l1 :: rest =>
          rw [parseTLVRest_cons]
          simp only [parse_tlv_fuel]
          by_cases hov : rest.length < l0 + 256 * l1
          · rw [if_pos hov, if_pos hov]
          · rw [if_neg hov, if_neg hov, ih]
            have : rest.length ≤ 3 * f := by simp at h; omega
            simp
            omega

theorem dget_dinsert_ne (k k' : Nat) (v : α) (m : List (Nat × α))
    (h : k' ≠ k) : dget k (dinsert k' v m) = dget k m := by
  induction m with
  | nil => simp [dinsert, dget, h]
  | cons p rest ih =>
      obtain ⟨k0, v0⟩ := p
      by_cases hk : k0 = k'
      · subst hk
        simp [dinsert, dget, h]
      · simp only [dinsert, if_neg hk]
        by_cases hk0 : k0 = k <;> simp [dget, hk0, ih]

theorem parseTLVRest_encode_append (rs : List (Nat × List Nat)) :
    ∀ (out : List (Nat × List Nat)) (junk : List Nat),
      (∀ p ∈ rs, p.2.length < 65536) →
      parseTLVRest out (encodeTLVRecords rs ++ junk) =
        parseTLVRest (insertAll out rs) junk := by
  induction rs with
  | nil => intro out junk _; simp [encodeTLVRecords, insertAll]
  | cons p rs ih =>
      obtain ⟨k, v⟩ := p
      intro out junk h
      have hv : v.length < 65536 := h (k, v) (by simp)
      have hlen : v.length % 256 + 256 * (v.length / 256 % 256) = v.length := by
        omega
      simp only [encodeTLVRecords, encodeTLVRecord, u16le, List.cons_append,
        List.append_assoc, List.nil_append]
      rw [parseTLVRest_cons, hlen,
        if_neg (by simp only [List.length_append]; omega),
        List.take_left, List.drop_left]
      simp only [insertAll]
      exact ih (dinsert k v out) junk (fun p hp => h p (by simp [hp]))

theorem dget_insertAll (k : Nat) (rs : List (Nat × List Nat)) :
    ∀ m, dget k (insertAll m rs) =
      match lookupLast k rs with
      | some w => some w
      | none => dget k m := by
  induction rs with
  | nil => intro m; simp [insertAll, lookupLast]
  | cons p rs ih =>
      obtain ⟨k0, v0⟩ := p
      intro m
      simp only [insertAll, lookupLast]
      rw [ih]
      cases hfind : lookupLast k rs with
      | some w => simp
      | none =>
          by_cases hk : k0 = k
          · subst hk
            simp [dget_dinsert_self]
          · simp [hk, dget_dinsert_ne k k0 v0 m hk]

/-! ### Lemmas about trimming -/

theorem dropWhile_head?_false (p : Nat → Bool) :
    ∀ (l : List Nat) (x : Nat), (l.dropWhile p).head? = some x → p x = false := by
  intro l
  induction l with
  | nil => intro x hx; simp [List.dropWhile] at hx
  | cons a r ih =>
      intro x hx
      by_cases ha : p a
      · rw [List.dropWhile_cons, if_pos ha] at hx
        exact ih x hx
      · rw [List.dropWhile_cons, if_neg ha] at hx
        simp at hx
        subst hx
        simpa using ha

theorem dropWhile_getLast?_of_ne_nil (p : Nat → Bool) :
    ∀ l : List Nat, l.dropWhile p ≠ [] →
      (l.dropWhile p).getLast? = l.getLast? := by
  intro l
  induction l with
  | nil => intro h; simp [List.dropWhile] at h
  | cons a r ih =>
      intro h
      by_cases ha : p a
      · rw [List.dropWhile_cons, if_pos ha] at h ⊢
        rw [ih h]
        have hr : r ≠ [] := by
          intro hr
          subst hr
          simp [List.dropWhile] at h
        cases r with
        | nil => exact absurd rfl hr
        | cons b rb => rw [List.getLast?_cons_cons]
      · rw [List.dropWhile_cons, if_neg ha]

theorem stripControl_head?_false (s : List Nat) (x : Nat)
    (h : (stripControl s).head? = some x) : isStripChar x = false := by
  rw [stripControl, List.head?_reverse] at h
  have hne : (s.dropWhile isStripChar).reverse.dropWhile isStripChar ≠ [] := by
    intro hnil
    rw [hnil] at h
    simp at h
  rw [dropWhile_getLast?_of_ne_nil isStripChar _ hne, List.getLast?_reverse] at h
  exact dropWhile_head?_false isStripChar _ x h

theorem stripControl_getLast?_false (s : List Nat) (x : Nat)
    (h : (stripControl s).getLast? = some x) : isStripChar x = false := by
  rw [stripControl, List.getLast?_reverse] at h
  exact dropWhile_head?_false isStripChar _ x h

/-! ### Lemmas about notification-source decoding -/

theorem decode_ns_cons (b0 b1 b2 b3 b4 b5 b6 b7 : Nat) (extra : List Nat) :
    decode_notification_source (b0 :: b1 :: b2 :: b3 :: b4 :: b5 :: b6 :: b7 :: extra) =
      some ⟨eventKindOfId b0, b1, categoryOfId b2, b3, leNat [b4, b5, b6, b7]⟩ := by
  simp [decode_notification_source, List.getD]

theorem decode_mkNSPacket (e f c n uid : Nat) (h : uid < 4294967296) :
    decode_notification_source (mkNSPacket e f c n uid) =
      some ⟨eventKindOfId e, f, categoryOfId c, n, uid⟩ := by
  have hlit : mkNSPacket e f c n uid =
      e :: f :: c :: n :: (uid % 256) :: (uid / 256 % 256) ::
        (uid / 256 / 256 % 256) :: (uid / 256 / 256 / 256 % 256) :: [] := rfl
  have h4 : leNat [uid % 256, uid / 256 % 256, uid / 256 / 256 % 256,
      uid / 256 / 256 / 256 % 256] = uid := leNat_u32le uid h
  rw [hlit, decode_ns_cons, h4]

/-! ### Claim theorems -/

/-- Claim C1: the TLV attribute parser consumes `{kind, u16 LE length, value}`
records and stops as soon as fewer than 3 bytes remain or a declared length
would overrun the buffer, returning the mapping of all complete records
parsed so far; moreover `01 05 00 "Hello" 03 03 00 "Hi!"` parses to
`{Title: "Hello", Message: "Hi!"}` and the same bytes without the final one
parse to `{Title: "Hello"}`. -/
theorem tlv_parse_stops_at_incomplete_record :
    (∀ (rs : List (Nat × List Nat)) (junk : List Nat),
        (∀ p ∈ rs, p.2.length < 65536) →
        (junk.length < 3 ∨
          ∃ a l0 l1 rest, junk = a :: l0 :: l1 :: rest ∧
            rest.length < l0 + 256 * l1) →
        parse_tlv_attributes (encodeTLVRecords rs ++ junk) = insertAll [] rs)
    ∧ parse_tlv_attributes
        [0x01, 0x05, 0x00, 0x48, 0x65, 0x6C, 0x6C, 0x6F,
          0x03, 0x03, 0x00, 0x48, 0x69, 0x21] =
        [(NA_TITLE, [0x48, 0x65, 0x6C, 0x6C, 0x6F]),
          (NA_MESSAGE, [0x48, 0x69, 0x21])]
    ∧ parse_tlv_attributes
        [0x01, 0x05, 0x00, 0x48, 0x65, 0x6C, 0x6C, 0x6F,
          0x03, 0x03, 0x00, 0x48, 0x69] =
        [(NA_TITLE, [0x48, 0x65, 0x6C, 0x6C, 0x6F])] := by
  refine ⟨fun rs junk hlen hstop => ?_, ?_, ?_⟩
  · rw [parse_tlv_attributes_eq, parseTLVRest_encode_append rs [] junk hlen]
    rcases hstop with hshort | ⟨a, l0, l1, rest, rfl, hov⟩
    · exact parseTLVRest_short _ junk hshort
    · rw [parseTLVRest_cons, if_pos hov]
  · have h5 : parse_tlv_fuel 5
        [0x01, 0x05, 0x00, 0x48, 0x65, 0x6C, 0x6C, 0x6F,
          0x03, 0x03, 0x00, 0x48, 0x69, 0x21] [] =
        parseTLVRest []
          [0x01, 0x05, 0x00, 0x48, 0x65, 0x6C, 0x6C, 0x6F,
            0x03, 0x03, 0x00, 0x48, 0x69, 0x21] :=
      parse_tlv_fuel_eq 5 _ [] (by decide)
    rw [parse_tlv_attributes_eq, ← h5]
    decide
  · have h5 : parse_tlv_fuel 5
        [0x01, 0x05, 0x00, 0x48, 0x65, 0x6C, 0x6C, 0x6F,
          0x03, 0x03, 0x00, 0x48, 0x69] [] =
        parseTLVRest []
          [0x01, 0x05, 0x00, 0x48, 0x65, 0x6C, 0x6C, 0x6F,
            0x03, 0x03, 0x00, 0x48, 0x69] :=
      parse_tlv_fuel_eq 5 _ [] (by decide)
    rw [parse_tlv_attributes_eq, ← h5]
    decide

/-- Witness for C1: one complete record followed by a record whose declared
length (5) overruns the remaining buffer (0 bytes). -/
theorem tlv_parse_stops_at_incomplete_record_witness :
    parse_tlv_attributes (encodeTLVRecords [(1, [72])] ++ [9, 5, 0]) =
      insertAll [] [(1, [72])] :=
  tlv_parse_stops_at_incomplete_record.1 [(1, [72])] [9, 5, 0]
    (by decide) (Or.inr ⟨9, 5, 0, [], rfl, by decide⟩)

/-- Claim C2: for buffers of length at least 8 the notification-source
decoder reads byte 0 as the event kind via the closed 0-2 table with an
Unknown fallback, byte 1 as the verbatim flags, byte 2 as the category via
the closed 0-11 table with an Unknown fallback, byte 3 as the category
count, bytes 4..8 as a little-endian u32 uid, and ignores trailing bytes;
`00 01 04 01 2A 00 00 00` decodes to Added/flags 1/Social/count 1/uid 42. -/
theorem ns_decode_field_layout :
    (∀ (b0 b1 b2 b3 b4 b5 b6 b7 : Nat) (extra : List Nat),
        decode_notification_source
            (b0 :: b1 :: b2 :: b3 :: b4 :: b5 :: b6 :: b7 :: extra) =
          some ⟨eventKindOfId b0, b1, categoryOfId b2, b3,
            b4 + 256 * b5 + 65536 * b6 + 16777216 * b7⟩)
    ∧ (eventKindOfId 0 = .Added ∧ eventKindOfId 1 = .Modified ∧
        eventKindOfId 2 = .Removed)
    ∧ (∀ n : Nat, 3 ≤ n → eventKindOfId n = .Unknown n)
    ∧ (categoryOfId 0 = .Other ∧ categoryOfId 1 = .IncomingCall ∧
        categoryOfId 2 = .MissedCall ∧ categoryOfId 3 = .Voicemail ∧
        categoryOfId 4 = .Social ∧ categoryOfId 5 = .Schedule ∧
        categoryOfId 6 = .Email ∧ categoryOfId 7 = .News ∧
        categoryOfId 8 = .Health ∧ categoryOfId 9 = .Business ∧
        categoryOfId 10 = .Location ∧ categoryOfId 11 = .Entertainment)
    ∧ (∀ n : Nat, 12 ≤ n → categoryOfId n = .Unknown n)
    ∧ decode_notification_source [0x00, 0x01, 0x04, 0x01, 0x2A, 0x00, 0x00, 0x00] =
        some ⟨.Added, 0b00000001, .Social, 1, 42⟩ := by
  refine ⟨fun b0 b1 b2 b3 b4 b5 b6 b7 extra => ?_, by decide,
    fun n hn => ?_, by decide, fun n hn => ?_, by decide⟩
  · rw [decode_ns_cons, leNat_four]
  · unfold eventKindOfId
    repeat rw [if_neg (by omega)]
  · unfold categoryOfId
    repeat rw [if_neg (by omega)]

/-- Witness for C2: the general layout at a concrete packet, and the
fallbacks at the concrete out-of-table code points 7 and 12. -/
theorem ns_decode_field_layout_witness :
    decode_notification_source (9 :: 8 :: 7 :: 6 :: 5 :: 4 :: 3 :: 2 :: [1]) =
        some ⟨eventKindOfId 9, 8, categoryOfId 7, 6,
          5 + 256 * 4 + 65536 * 3 + 16777216 * 2⟩
    ∧ eventKindOfId 7 = .Unknown 7
    ∧ categoryOfId 12 = .Unknown 12 :=
  ⟨ns_decode_field_layout.1 9 8 7 6 5 4 3 2 [1],
    ns_decode_field_layout.2.2.1 7 (by decide),
    ns_decode_field_layout.2.2.2.2.1 12 (by decide)⟩

/-- Claim C3: the encoded get-notification-attributes command is the command
id byte, the uid as u32 LE, then each requested attribute in order as a kind
byte followed by a u16 LE maxLength only for the variable-length kinds; and
decoding the produced bytes recovers the uid and the ordered kind list
`[AppIdentifier, Title, Message]`. -/
theorem attribute_request_encoding_roundtrip (uid : Nat)
    (h : uid < 4294967296) :
    request_attributes_cmd uid =
        CP_GET_NOTIFICATION_ATTRIBUTES :: u32le uid ++
          [NA_APP_IDENTIFIER, NA_TITLE, 64, 0, NA_MESSAGE, 0, 1]
    ∧ request_attributes_cmd uid =
        encode_command uid
          [(NA_APP_IDENTIFIER, none), (NA_TITLE, some MAX_TITLE_LEN),
            (NA_MESSAGE, some MAX_MESSAGE_LEN)]
    ∧ decode_command_header (request_attributes_cmd uid) =
        some (CP_GET_NOTIFICATION_ATTRIBUTES, uid,
          [NA_APP_IDENTIFIER, NA_TITLE, NA_MESSAGE]) := by
  have hlit : request_attributes_cmd uid =
      0 :: uid % 256 :: uid / 256 % 256 :: uid / 256 / 256 % 256 ::
        uid / 256 / 256 / 256 % 256 :: [0, 1, 64, 0, 3, 0, 1] := rfl
  have h4 : leNat [uid % 256, uid / 256 % 256, uid / 256 / 256 % 256,
      uid / 256 / 256 / 256 % 256] = uid := leNat_u32le uid h
  refine ⟨rfl, rfl, ?_⟩
  rw [hlit]
  simp only [decode_command_header]
  rw [h4, show decodeKindList [0, 1, 64, 0, 3, 0, 1] = [0, 1, 3] from by decide]
  rfl

/-- Witness for C3 at uid 305419896 (0x12345678). -/
theorem attribute_request_encoding_roundtrip_witness :
    decode_command_header (request_attributes_cmd 305419896) =
      some (CP_GET_NOTIFICATION_ATTRIBUTES, 305419896,
        [NA_APP_IDENTIFIER, NA_TITLE, NA_MESSAGE]) :=
  (attribute_request_encoding_roundtrip 305419896 (by decide)).2.2

/-- Claim C5: buffers shorter than 8 bytes are rejected as short packets
(decoded to `none`, reported and dropped), and buffers of length at least 8
always decode successfully, whatever the kind and category code points. -/
theorem ns_decode_short_packet (data : List Nat) :
    (data.length < 8 → decode_notification_source data = none)
    ∧ (8 ≤ data.length → (decode_notification_source data).isSome = true) := by
  constructor
  · intro h
    unfold decode_notification_source
    rw [if_pos h]
  · intro h
    unfold decode_notification_source
    rw [if_neg (by omega)]
    rfl

/-- Witness for C5: a 3-byte packet decodes to none, an 8-byte packet with
out-of-table code points still decodes. -/
theorem ns_decode_short_packet_witness :
    decode_notification_source [1, 2, 3] = none
    ∧ (decode_notification_source [255, 255, 255, 255, 255, 255, 255, 255]).isSome = true :=
  ⟨(ns_decode_short_packet [1, 2, 3]).1 (by decide),
    (ns_decode_short_packet [255, 255, 255, 255, 255, 255, 255, 255]).2 (by decide)⟩

/-- Claim C10: the TLV parser is total; it terminates within
`len(data) / 3 + 1` iterations because every iteration consumes at least
3 bytes, as witnessed by agreement with the fuel-bounded variant. -/
theorem tlv_parse_terminates (data : List Nat) :
    parse_tlv_attributes data = parse_tlv_fuel (data.length / 3 + 1) data [] := by
  rw [parse_tlv_attributes_eq,
    parse_tlv_fuel_eq (data.length / 3 + 1) data [] (by omega)]

/-- Counterexample to C4 as stated: when the uid already had a pending entry
(the last-request-wins overwrite case), the rollback pops the slot entirely,
so the table is NOT left as if the request had never been issued. -/
theorem write_failure_rollback_cex :
    ¬ ((request_notification_attributes
          [(5, ⟨5, "notification_attributes"⟩)] 5 false).1 =
        [(5, ⟨5, "notification_attributes"⟩)]) := by
  decide

/-- Claim C4 (amended): on a transport write failure the just-created
pending entry for the uid is removed again, so the uid is absent from the
table afterwards; when the uid had no pending entry before the request the
table is exactly as before; the failure is reported non-fatally (the handler
returns normally with a failure result) and a successful write leaves the
entry in place. -/
theorem write_failure_rollback (pending : List (Nat × PendingRequest))
    (uid : Nat) :
    dget uid (request_notification_attributes pending uid false).1 = none
    ∧ (dget uid pending = none →
        (request_notification_attributes pending uid false).1 = pending)
    ∧ (request_notification_attributes pending uid false).2 = false
    ∧ (request_notification_attributes pending uid true).1 =
        dinsert uid ⟨uid, "notification_attributes"⟩ pending
    ∧ (request_notification_attributes pending uid true).2 = true := by
  refine ⟨dget_dremove_self uid _, fun h => dremove_dinsert_of_none uid _ pending h,
    rfl, rfl, rfl⟩

/-- Witness for C4 (amended) at an empty table and uid 7. -/
theorem write_failure_rollback_witness :
    dget 7 (request_notification_attributes [] 7 false).1 = none
    ∧ (request_notification_attributes [] 7 false).1 = [] :=
  ⟨(write_failure_rollback [] 7).1, (write_failure_rollback [] 7).2.1 rfl⟩

/-- Claim C6: a Removed event pops any pending entry for the uid and
produces neither a summary nor an outgoing attribute request; a Modified
event leaves the table untouched and triggers no attribute request. -/
theorem removed_clears_pending_modified_no_request
    (pending : List (Nat × PendingRequest)) (f c n uid : Nat)
    (h : uid < 4294967296) :
    on_notification_source pending (mkNSPacket EVENT_REMOVED f c n uid) =
        ⟨dremove uid pending, none, none⟩
    ∧ dget uid
        (on_notification_source pending
          (mkNSPacket EVENT_REMOVED f c n uid)).pending = none
    ∧ on_notification_source pending (mkNSPacket EVENT_MODIFIED f c n uid) =
        ⟨pending, none, none⟩ := by
  have hrem := decode_mkNSPacket 2 f c n uid h
  have hmod := decode_mkNSPacket 1 f c n uid h
  refine ⟨?_, ?_, ?_⟩
  · simp [on_notification_source, hrem, eventKindOfId, EVENT_REMOVED]
  · simp [on_notification_source, hrem, eventKindOfId, EVENT_REMOVED,
      dget_dremove_self]
  · simp [on_notification_source, hmod, eventKindOfId, EVENT_MODIFIED]

/-- Witness for C6: a Removed packet for uid 3 empties that uid's slot. -/
theorem removed_clears_pending_modified_no_request_witness :
    dget 3 (on_notification_source [(3, ⟨3, "notification_attributes"⟩)]
      (mkNSPacket EVENT_REMOVED 0 0 0 3)).pending = none :=
  (removed_clears_pending_modified_no_request
    [(3, ⟨3, "notification_attributes"⟩)] 0 0 0 3 (by decide)).2.1

/-- Claim C7: for every data-source packet of length at least 4 a summary is
emitted (never an error); its string fields are permissively decoded — an
invalid byte is dropped, as in the concrete conjunct — and trimmed of
surrounding NUL/whitespace control characters on both ends; attribute kinds
missing from the parsed response produce empty fields. -/
theorem data_source_permissive_text :
    (∀ (pending : List (Nat × PendingRequest)) (data : List Nat),
        4 ≤ data.length →
        ∃ s, (on_data_source pending data).emitted = some s
          ∧ (∀ x, s.app_id.head? = some x → isStripChar x = false)
          ∧ (∀ x, s.app_id.getLast? = some x → isStripChar x = false)
          ∧ (∀ x, s.title.head? = some x → isStripChar x = false)
          ∧ (∀ x, s.title.getLast? = some x → isStripChar x = false)
          ∧ (∀ x, s.message.head? = some x → isStripChar x = false)
          ∧ (∀ x, s.message.getLast? = some x → isStripChar x = false)
          ∧ (dget NA_APP_IDENTIFIER (parse_tlv_attributes (data.drop 4)) = none
              → s.app_id = [])
          ∧ (dget NA_TITLE (parse_tlv_attributes (data.drop 4)) = none
              → s.title = [])
          ∧ (dget NA_MESSAGE (parse_tlv_attributes (data.drop 4)) = none
              → s.message = []))
    ∧ decodeUtf8Ignore [0x48, 0xFF, 0x69] = [0x48, 0x69] := by
  refine ⟨?_, by decide⟩
  intro pending data h
  simp only [on_data_source]
  rw [if_neg (by omega)]
  refine ⟨_, rfl,
    fun x hx => stripControl_head?_false _ x hx,
    fun x hx => stripControl_getLast?_false _ x hx,
    fun x hx => stripControl_head?_false _ x hx,
    fun x hx => stripControl_getLast?_false _ x hx,
    fun x hx => stripControl_head?_false _ x hx,
    fun x hx => stripControl_getLast?_false _ x hx,
    fun hnone => ?_, fun hnone => ?_, fun hnone => ?_⟩
  · rw [hnone]
    rfl
  · rw [hnone]
    rfl
  · rw [hnone]
    rfl

/-- Witness for C7: a 4-byte packet (uid only, no TLV payload) emits a
summary with all fields empty. -/
theorem data_source_permissive_text_witness :
    ∃ s, (on_data_source [] [42, 0, 0, 0]).emitted = some s
      ∧ (∀ x, s.app_id.head? = some x → isStripChar x = false)
      ∧ (∀ x, s.app_id.getLast? = some x → isStripChar x = false)
      ∧ (∀ x, s.title.head? = some x → isStripChar x = false)
      ∧ (∀ x, s.title.getLast? = some x → isStripChar x = false)
      ∧ (∀ x, s.message.head? = some x → isStripChar x = false)
      ∧ (∀ x, s.message.getLast? = some x → isStripChar x = false)
      ∧ (dget NA_APP_IDENTIFIER (parse_tlv_attributes ([42, 0, 0, 0].drop 4)) = none
          → s.app_id = [])
      ∧ (dget NA_TITLE (parse_tlv_attributes ([42, 0, 0, 0].drop 4)) = none
          → s.title = [])
      ∧ (dget NA_MESSAGE (parse_tlv_attributes ([42, 0, 0, 0].drop 4)) = none
          → s.message = []) :=
  data_source_permissive_text.1 [] [42, 0, 0, 0] (by decide)

/-- Claim C8: removing an absent uid from the pending table is a no-op that
returns nothing and leaves the table unchanged. -/
theorem pending_remove_absent_noop (m : List (Nat × PendingRequest))
    (uid : Nat) (h : dget uid m = none) : dpop uid m = (none, m) := by
  rw [dpop, h, dremove_of_dget_none uid m h]

/-- Witness for C8: popping uid 3 from a table holding only uid 5. -/
theorem pending_remove_absent_noop_witness :
    dpop 3 [(5, (⟨5, "notification_attributes"⟩ : PendingRequest))] =
      (none, [(5, ⟨5, "notification_attributes"⟩)]) :=
  pending_remove_absent_noop [(5, ⟨5, "notification_attributes"⟩)] 3 (by decide)

/-- Claim C9: when a buffer contains several complete TLV records with the
same kind, the parsed mapping binds that kind to the value of the last such
record (`lookupLast`); earlier occurrences are overwritten. -/
theorem tlv_duplicate_kind_last_wins (rs : List (Nat × List Nat))
    (h : ∀ p ∈ rs, p.2.length < 65536) (k : Nat) :
    dget k (parse_tlv_attributes (encodeTLVRecords rs)) = lookupLast k rs := by
  have happ := parseTLVRest_encode_append rs [] [] h
  rw [List.append_nil] at happ
  rw [parse_tlv_attributes_eq, happ, parseTLVRest_nil, dget_insertAll]
  cases hl : lookupLast k rs with
  | some w => rfl
  | none => rfl

/-- Witness for C9: two Title records; the mapping holds the second value. -/
theorem tlv_duplicate_kind_last_wins_witness :
    dget 1 (parse_tlv_attributes (encodeTLVRecords [(1, [65]), (1, [66])])) =
      lookupLast 1 [(1, [65]), (1, [66])] :=
  tlv_duplicate_kind_last_wins [(1, [65]), (1, [66])] (by decide) 1

end ANCS
